import Mathlib

/-!
Verification of the queezy trivia-game backend (TypeScript source) via a
shallow embedding in Lean 4.

The data model follows `src/types/game.ts`; the scoring functions follow
`src/services/scoreService.ts`; room mutations follow
`src/services/roomService.ts`; the game engine (question display, timers,
question resolution) follows `src/services/gameService.ts` together with the
socket handlers (`answerHandler`, `gameHandler`).

JavaScript `number` values holding integral quantities are modelled as `Nat`
(indices, milliseconds, streaks) or `Int` (scores, points); the floating-point
expression inside `calculatePoints` is modelled over `Rat`, which is exact for
the values involved.  JavaScript's falsy-coalescing `x || d` on optional
numbers is modelled by `jsOr` (treating both `undefined` and `0` as falsy).
`Array.prototype.sort` (stable since ES2019) is modelled by the stable
insertion sort `sortDescBy`.
-/

namespace Queezy

/-- Game phases, from `src/types/game.ts` (`GamePhase`). -/
inductive GamePhase where
  | lobby
  | starting
  | question
  | answering
  | reveal
  | winnerJingle
  | leaderboard
  | final
  | finalResults
deriving DecidableEq

/-- Answer options, from `src/types/game.ts` (`AnswerOption`). -/
inductive AnswerOption where
  | A | B | C | D
deriving DecidableEq

/-- The four option texts of a question (`Question.options`). -/
structure QuestionOptions where
  A : String
  B : String
  C : String
  D : String
deriving DecidableEq

/-- A player record, from `src/types/game.ts` (`Player`).  Optional boolean
fields (`isHost`, `isReady`) are modelled as `Bool` (absent = `false`). -/
structure Player where
  id : String
  name : String
  avatar : String
  score : Int
  streak : Nat
  jingleId : Option String
  isConnected : Bool
  isHost : Bool
  isReady : Bool
deriving DecidableEq

/-- A question record, from `src/types/game.ts` (`Question`). -/
structure Question where
  id : String
  text : String
  options : QuestionOptions
  correctAnswer : AnswerOption
  timeLimit : Option Nat
  imageUrl : Option String
deriving DecidableEq

/-- A recorded answer, from `src/types/game.ts` (`Answer`). -/
structure Answer where
  playerId : String
  questionIndex : Nat
  answer : AnswerOption
  timestamp : Nat
  timeElapsed : Nat
deriving DecidableEq

/-- Room settings, from `src/types/game.ts` (`RoomSettings`). -/
structure RoomSettings where
  questionCount : Nat
  timeLimit : Nat
  difficulty : String
  category : String
  categoryName : String
  maxPlayers : Nat
  minPlayers : Nat
deriving DecidableEq

/-- A room record, from `src/types/game.ts` (`Room`). -/
structure Room where
  code : String
  tvSocketId : String
  phase : GamePhase
  players : List Player
  questions : List Question
  currentQuestionIndex : Nat
  currentAnswers : List Answer
  questionStartTime : Option Nat
  settings : RoomSettings
  createdAt : String
deriving DecidableEq

/-- JavaScript `x || d` on an optional number: both `undefined` and `0` are
falsy and yield the default. -/
def jsOr (x : Option Nat) (d : Nat) : Nat :=
  match x with
  | none => d
  | some t => if t = 0 then d else t

-- ============================================
-- Scoring constants (src/services/scoreService.ts)
-- ============================================

def BASE_POINTS : Int := 1000
def STREAK_BONUS : Int := 100
def MAX_STREAK_BONUS : Int := 500
def TIME_BONUS_MULTIPLIER : Rat := 1/2

/-- `ScoreService.calculatePoints` from `src/services/scoreService.ts`:
base points plus a floored time bonus plus a capped streak bonus for a
correct answer, `0` otherwise. -/
def calculatePoints (isCorrect : Bool) (timeElapsed timeLimit : Nat)
    (streak : Nat) : Int :=
  if !isCorrect then 0
  else
    let timeRatio : Rat := max 0 (1 - (timeElapsed : Rat) / ((timeLimit : Rat) * 1000))
    let timeBonus : Int := ((BASE_POINTS : Rat) * timeRatio * TIME_BONUS_MULTIPLIER).floor
    let streakBonus : Int := min ((streak : Int) * STREAK_BONUS) MAX_STREAK_BONUS
    BASE_POINTS + timeBonus + streakBonus

/-- The point formula for a correct answer exactly as the spec words it —
`BASE + floor(BASE × max(0, 1 − elapsedMs/(timeLimitSec×1000)) × 0.5)
+ min(priorStreak × 100, 500)` — written independently of the source for
comparison with `calculatePoints`. -/
def claimPoints (timeElapsed timeLimit streak : Nat) : Int :=
  BASE_POINTS
    + ((BASE_POINTS : Rat)
        * (max 0 (1 - (timeElapsed : Rat) / ((timeLimit : Rat) * 1000)))
        * TIME_BONUS_MULTIPLIER).floor
    + min ((streak : Int) * STREAK_BONUS) MAX_STREAK_BONUS

/-- One entry of the result list returned by `calculateQuestionResults`
(`QuestionResult` in `src/services/scoreService.ts`). -/
structure QuestionResult where
  playerId : String
  answer : Option AnswerOption
  isCorrect : Bool
  pointsEarned : Int
  newScore : Int
  streak : Nat
  timeElapsed : Nat
deriving DecidableEq

-- ============================================
-- Stable descending sort (model of Array.prototype.sort
-- with comparator (a, b) => key b - key a; stable per ES2019)
-- ============================================

/-- Insert `x` into a descending-sorted list, before the first element whose
key is not larger; equal keys keep the incoming element first, which models
the stability of `Array.prototype.sort`. -/
def insertDescBy (key : α → Int) (x : α) : List α → List α
  | [] => [x]
  | y :: ys => if key y ≤ key x then x :: y :: ys else y :: insertDescBy key x ys

/-- Stable sort, descending by `key`; the unique stable result of
`Array.prototype.sort` with comparator `(a, b) => key b - key a`. -/
def sortDescBy (key : α → Int) : List α → List α
  | [] => []
  | x :: xs => insertDescBy key x (sortDescBy key xs)

/-- The per-player result computed inside the loop of
`ScoreService.calculateQuestionResults`. -/
def resultForPlayer (question : Question) (answers : List Answer)
    (timeLimit : Nat) (player : Player) : QuestionResult :=
  let answer := answers.find? (fun a => a.playerId == player.id)
  let isCorrect := answer.map (·.answer) == some question.correctAnswer
  let currentStreak := if isCorrect then player.streak + 1 else 0
  let points := calculatePoints isCorrect
    (jsOr (answer.map (·.timeElapsed)) (timeLimit * 1000)) timeLimit player.streak
  { playerId := player.id
    answer := answer.map (·.answer)
    isCorrect := isCorrect
    pointsEarned := points
    newScore := player.score + points
    streak := currentStreak
    timeElapsed := jsOr (answer.map (·.timeElapsed)) 0 }

/-- `ScoreService.calculateQuestionResults` from
`src/services/scoreService.ts` (the pure part: the room has already been
fetched).  One result per player of the room, sorted by `pointsEarned`
descending with the stable `Array.prototype.sort`. -/
def calculateQuestionResults (room : Room) (question : Question)
    (answers : List Answer) : List QuestionResult :=
  let timeLimit := jsOr question.timeLimit room.settings.timeLimit
  let results := room.players.map (resultForPlayer question answers timeLimit)
  sortDescBy (·.pointsEarned) results

/-- One entry of the final rankings (`ScoreService.calculateFinalRankings`
return type). -/
structure RankEntry where
  playerId : String
  name : String
  avatar : String
  score : Int
  rank : Nat
  isWinner : Bool
deriving DecidableEq

/-- `ScoreService.calculateFinalRankings` from `src/services/scoreService.ts`:
stable sort by score descending, then rank by position (1-based). -/
def calculateFinalRankings (players : List Player) : List RankEntry :=
  let sorted := sortDescBy (·.score) players
  sorted.enum.map (fun ip =>
    { playerId := ip.2.id
      name := ip.2.name
      avatar := ip.2.avatar
      score := ip.2.score
      rank := ip.1 + 1
      isWinner := ip.1 == 0 })

/-- One leaderboard entry (`RoomService.getLeaderboard` return type). -/
structure LeaderboardEntry where
  playerId : String
  name : String
  avatar : String
  score : Int
  rank : Nat
deriving DecidableEq

/-- `RoomService.getLeaderboard` from `src/services/roomService.ts` (the pure
part): stable sort of the room's players by score descending, rank by
position. -/
def getLeaderboard (room : Room) : List LeaderboardEntry :=
  (sortDescBy (·.score) room.players).enum.map (fun ip =>
    { playerId := ip.2.id
      name := ip.2.name
      avatar := ip.2.avatar
      score := ip.2.score
      rank := ip.1 + 1 })

-- ============================================
-- Room service (src/services/roomService.ts), pure parts
-- ============================================

/-- `RoomService.createRoom` from `src/services/roomService.ts`: the fresh
room record (code issuing and cache writes abstracted away). -/
def createRoom (roomCode tvSocketId createdAt : String) : Room :=
  { code := roomCode
    tvSocketId := tvSocketId
    phase := .lobby
    players := []
    questions := []
    currentQuestionIndex := 0
    currentAnswers := []
    questionStartTime := none
    settings :=
      { questionCount := 10
        timeLimit := 20
        difficulty := "mixed"
        category := ""
        categoryName := ""
        maxPlayers := 50
        minPlayers := 2 }
    createdAt := createdAt }

/-- Mutate the first player with the given id, as `room.players.find(...)`
followed by in-place mutation does in the source. -/
def updateFirst (playerId : String) (f : Player → Player) :
    List Player → List Player
  | [] => []
  | p :: ps =>
    if p.id == playerId then f p :: ps else p :: updateFirst playerId f ps

/-- `RoomService.updatePlayerScore`: add points and advance or reset the
streak of the matching player. -/
def updatePlayerScore (room : Room) (playerId : String) (points : Int)
    (isCorrect : Bool) : Room :=
  { room with
    players := updateFirst playerId
      (fun p =>
        { p with
          score := p.score + points
          streak := if isCorrect then p.streak + 1 else 0 })
      room.players }

/-- `RoomService.recordAnswer`: append the answer. -/
def recordAnswer (room : Room) (a : Answer) : Room :=
  { room with currentAnswers := room.currentAnswers ++ [a] }

/-- `RoomService.nextQuestion`: advance the index, clear answers, report
whether more questions remain. -/
def nextQuestion (room : Room) : Room × Bool :=
  let room2 := { room with
    currentQuestionIndex := room.currentQuestionIndex + 1
    currentAnswers := [] }
  (room2, room2.currentQuestionIndex < room2.questions.length)

/-- `RoomService.setQuestions`: install the question list, set the category,
reset the index. -/
def setQuestions (room : Room) (questions : List Question) (category : String) :
    Room :=
  { room with
    questions := questions
    settings := { room.settings with category := category }
    currentQuestionIndex := 0 }

/-- `RoomService.resetRoom` from `src/services/roomService.ts`: back to the
lobby with cleared game state; player scores and streaks zeroed, everything
else about the players and the room kept. -/
def resetRoom (room : Room) : Room :=
  { room with
    phase := .lobby
    questions := []
    currentQuestionIndex := 0
    currentAnswers := []
    questionStartTime := none
    players := room.players.map (fun p => { p with score := 0, streak := 0 }) }

-- ============================================
-- Game engine (src/services/gameService.ts and the socket handlers)
-- ============================================

def COUNTDOWN_DURATION : Nat := 3
def WINNER_JINGLE_DURATION : Nat := 3000

/-- One entry of the `results` array inside the `game:reveal` payload. -/
structure RevealEntry where
  playerId : String
  answer : Option AnswerOption
  isCorrect : Bool
  pointsEarned : Int
  newScore : Int
  streak : Nat
deriving DecidableEq

/-- The `questionWinner` object inside the `game:reveal` payload. -/
structure WinnerInfo where
  playerId : String
  name : String
  avatar : String
  pointsEarned : Int
  jingleId : Option String
deriving DecidableEq

/-- The `winner` object inside the `game:finished` payload. -/
structure FinalWinner where
  playerId : String
  name : String
  avatar : String
  score : Int
  jingleId : Option String
deriving DecidableEq

/-- Events broadcast to the room channel.  Each constructor carries exactly
the payload fields the source emits; in particular `gameQuestion` carries the
question's `text`, `options`, `timeLimit` and `imageUrl` (both the inner
`question.timeLimit` field and the top-level `timeLimit` field) and no
`correctAnswer`, while `gameReveal` is the constructor carrying
`correctAnswer`.  `roomEvent` stands for the lobby-shape `room:*` broadcasts,
whose payloads hold only player records, names and counts. -/
inductive Event where
  | gameQuestion (questionIndex totalQuestions : Nat) (text : String)
      (options : QuestionOptions) (innerTimeLimit : Nat)
      (imageUrl : Option String) (outerTimeLimit : Nat)
  | timerTick (timeRemaining : Nat)
  | timerEnd
  | playerAnswered (playerId : String) (answeredCount totalPlayers : Nat)
  | answerReceived (playerId : String) (answerCount totalPlayers : Nat)
  | answerAllReceived
  | gameReveal (correctAnswer : AnswerOption) (results : List RevealEntry)
      (standings : List LeaderboardEntry) (questionWinner : Option WinnerInfo)
  | gameStarted (questionCount currentQuestion : Nat)
  | gameFinished (standings : List LeaderboardEntry) (winner : Option FinalWinner)
  | gamePaused
  | gameRestarted
  | roomEvent (name : String) (players : List Player) (counts : List Nat)
deriving DecidableEq

/-- Whether the event's payload carries a `correctAnswer` field; true exactly
for `game:reveal`, the only emit whose payload includes it. -/
def carriesCorrectAnswer : Event → Bool
  | .gameReveal _ _ _ _ => true
  | _ => false

/-- The single per-room timer slot (`GameService.timers`), together with the
1 Hz tick interval it is paired with.  `deadline` is the question timeout set
by `showQuestion`, `advance` the post-reveal timer set by `questionTimeout`;
the argument is the duration in milliseconds. -/
inductive TimerKind where
  | noTimer
  | deadline (ms : Nat)
  | advance (ms : Nat)
deriving DecidableEq

/-- In-memory engine state for one room: the cached room record plus the
per-room timer and the remaining ticks of the countdown interval. -/
structure EngineState where
  room : Room
  timer : TimerKind
  ticksRemaining : Nat
deriving DecidableEq

/-- A trace of broadcasts: each event paired with the room phase committed at
the moment the event is emitted. -/
abbrev Trace := List (GamePhase × Event)

/-- `GameService.clearTimer` (also clears the tick interval). -/
def clearTimer (s : EngineState) : EngineState :=
  { s with timer := .noTimer, ticksRemaining := 0 }

/-- `GameService.endGame`: cancel timers, set phase `final`, broadcast
`game:finished` with standings and winner. -/
def endGame (s : EngineState) : EngineState × Trace :=
  let s2 := clearTimer s
  let room := { s2.room with phase := GamePhase.final }
  let standings := getLeaderboard room
  let winner := standings.head?
  ({ s2 with room := room },
   [(GamePhase.final,
     .gameFinished standings
       (winner.map (fun w =>
         { playerId := w.playerId
           name := w.name
           avatar := w.avatar
           score := w.score
           jingleId :=
             (room.players.find? (fun p => p.id == w.playerId)).bind
               (·.jingleId) })))])

/-- `GameService.showQuestion`: if no question remains, end the game;
otherwise clear answers, stamp the start time, move to phase `question`,
broadcast `game:question` (using the room settings' time limit), start the
tick interval and register the `(timeLimit + 1) s` deadline. -/
def showQuestion (s : EngineState) (now : Nat) : EngineState × Trace :=
  match s.room.questions[s.room.currentQuestionIndex]? with
  | none => endGame s
  | some question =>
    let room := { s.room with
      currentAnswers := []
      questionStartTime := some now
      phase := GamePhase.question }
    let timeLimit := room.settings.timeLimit
    ({ room := room
       timer := .deadline ((timeLimit + 1) * 1000)
       ticksRemaining := timeLimit },
     [(GamePhase.question,
       .gameQuestion s.room.currentQuestionIndex s.room.questions.length
         question.text question.options timeLimit question.imageUrl
         timeLimit)])

/-- One firing of the 1 Hz countdown interval in `showQuestion`: decrement,
emit `timer:tick`, and emit `timer:end` when zero is reached. -/
def timerTickFire (s : EngineState) : EngineState × Trace :=
  match s.ticksRemaining with
  | 0 => (s, [])
  | n + 1 =>
    ({ s with ticksRemaining := n },
     if n = 0 then
       [(s.room.phase, .timerTick 0), (s.room.phase, .timerEnd)]
     else
       [(s.room.phase, .timerTick n)])

/-- The shared resolution body of `GameService.questionTimeout` and the TV
`answer:timeout` handler: score the current question, persist scores and
streaks, and build the `game:reveal` payload pieces.  Returns `none` when the
current index has no question (the source would throw dereferencing
`question.correctAnswer`). -/
def resolveCurrentQuestion (room : Room) :
    Option (Room × Question × List QuestionResult × List LeaderboardEntry) :=
  match room.questions[room.currentQuestionIndex]? with
  | none => none
  | some question =>
    let answers := room.currentAnswers.filter
      (fun a => a.questionIndex == room.currentQuestionIndex)
    let results := calculateQuestionResults room question answers
    let room2 := results.foldl
      (fun r res => updatePlayerScore r res.playerId res.pointsEarned res.isCorrect)
      room
    some (room2, question, results, getLeaderboard room2)

/-- `GameService.questionTimeout`, as fired by the deadline timer (which
first clears the tick interval): a no-op when the phase is no longer
`question`; otherwise resolve the question, move to phase `reveal`, broadcast
`game:reveal` (with the question winner), and schedule the advance timer. -/
def questionTimeoutFire (s : EngineState) : Option (EngineState × Trace) :=
  let s2 : EngineState := { s with ticksRemaining := 0, timer := .noTimer }
  if s.room.phase ≠ GamePhase.question then some (s2, [])
  else
    match resolveCurrentQuestion s.room with
    | none => none
    | some (room2, question, results, standings) =>
      let questionWinner :=
        (sortDescBy (·.pointsEarned)
          (results.filter (fun r => r.isCorrect && decide (0 < r.pointsEarned)))).head?
      let winnerPlayer := questionWinner.bind
        (fun qw => s.room.players.find? (fun p => p.id == qw.playerId))
      let room3 := { room2 with phase := GamePhase.reveal }
      let revealDuration :=
        if winnerPlayer.isSome then 5000 + WINNER_JINGLE_DURATION else 5000
      some
        ({ room := room3, timer := .advance revealDuration, ticksRemaining := 0 },
         [(GamePhase.reveal,
           .gameReveal question.correctAnswer
             (results.map (fun r =>
               { playerId := r.playerId
                 answer := r.answer
                 isCorrect := r.isCorrect
                 pointsEarned := r.pointsEarned
                 newScore := r.newScore
                 streak := r.streak }))
             standings
             (match winnerPlayer, questionWinner with
              | some wp, some qw =>
                some { playerId := wp.id
                       name := wp.name
                       avatar := wp.avatar
                       pointsEarned := qw.pointsEarned
                       jingleId := wp.jingleId }
              | _, _ => none))])

/-- `GameService.advanceToNextQuestion`, as fired by the advance timer:
increment the index and either show the next question or end the game. -/
def advanceFire (s : EngineState) (now : Nat) : EngineState × Trace :=
  let r := nextQuestion s.room
  let s2 : EngineState := { s with room := r.1 }
  if r.2 then showQuestion s2 now else endGame s2

/-- Acknowledgement callback result of `answer:submit`. -/
inductive Ack where
  | ok (accepted : Bool)
  | err (msg : String)
deriving DecidableEq

/-- The `answerRecord` object built inside the `answer:submit` handler:
client timestamp (falling back to the server clock) and server-computed
`timeElapsed = now − questionStartTime`. -/
def mkAnswerRecord (s : EngineState) (playerId : String) (answer : AnswerOption)
    (timestamp : Option Nat) (now : Nat) : Answer :=
  { playerId := playerId
    questionIndex := s.room.currentQuestionIndex
    answer := answer
    timestamp := jsOr timestamp now
    timeElapsed := now - jsOr s.room.questionStartTime now }

/-- The `answer:submit` handler (`registerAnswerHandlers`): reject outside
phase `question` or on a duplicate, otherwise record the answer with
`timeElapsed = now − questionStartTime`, broadcast `player:answered` and
`answer:received` with the counts, and broadcast `answer:all-received` when
every connected player has answered.  No timer is touched and no resolution
is invoked. -/
def answerSubmit (s : EngineState) (playerId : String) (answer : AnswerOption)
    (timestamp : Option Nat) (now : Nat) : EngineState × Trace × Ack :=
  let room := s.room
  if room.phase ≠ GamePhase.question then
    (s, [], .err "Not accepting answers")
  else if (room.currentAnswers.find? (fun a =>
      a.playerId == playerId && a.questionIndex == room.currentQuestionIndex)).isSome then
    (s, [], .err "Already answered")
  else
    let room2 := recordAnswer room (mkAnswerRecord s playerId answer timestamp now)
    let connectedPlayers := (room2.players.filter (·.isConnected)).length
    let answerCount := (room2.currentAnswers.filter
      (fun a => a.questionIndex == room.currentQuestionIndex)).length
    ({ s with room := room2 },
     [(GamePhase.question, .playerAnswered playerId answerCount connectedPlayers),
      (GamePhase.question, .answerReceived playerId answerCount connectedPlayers)]
     ++ (if connectedPlayers ≤ answerCount
         then [(GamePhase.question, .answerAllReceived)] else []),
     .ok true)

/-- The TV-only `answer:timeout` handler: resolve the current question (no
phase guard in the source), move to phase `reveal` and broadcast
`game:reveal` (without a `questionWinner` field); the engine timers are not
touched.  `none` when the current index has no question (the source would
throw). -/
def answerTimeoutTV (s : EngineState) : Option (EngineState × Trace) :=
  match resolveCurrentQuestion s.room with
  | none => none
  | some (room2, question, results, _) =>
    let room3 := { room2 with phase := GamePhase.reveal }
    some
      ({ s with room := room3 },
       [(GamePhase.reveal,
         .gameReveal question.correctAnswer
           (results.map (fun r =>
             { playerId := r.playerId
               answer := r.answer
               isCorrect := r.isCorrect
               pointsEarned := r.pointsEarned
               newScore := r.newScore
               streak := r.streak }))
           (getLeaderboard room3)
           none)])

/-- The `game:start` handler after its guards: set phase `starting`
(`GameService.startGame`) and broadcast `game:started`; the first question is
shown by a later `showQuestion` call. -/
def startGame (s : EngineState) : EngineState × Trace :=
  let room := { s.room with phase := GamePhase.starting }
  ({ s with room := room },
   [(GamePhase.starting, .gameStarted room.questions.length 0)])

/-- The `game:restart` handler: `GameService.restartGame` (cancel timers,
`resetRoom`) then broadcast `game:restarted`. -/
def restartGameOp (s : EngineState) : EngineState × Trace :=
  let s2 := clearTimer s
  ({ s2 with room := resetRoom s2.room }, [(GamePhase.lobby, .gameRestarted)])

/-- The `game:pause` handler: `GameService.pauseGame` (cancel timers, phase
back to `lobby`) then broadcast `game:paused`. -/
def pauseGameOp (s : EngineState) : EngineState × Trace :=
  let s2 := clearTimer s
  ({ s2 with room := { s2.room with phase := GamePhase.lobby } },
   [(GamePhase.lobby, .gamePaused)])

/-- Fresh engine state for a newly created room. -/
def initState (roomCode tvSocketId createdAt : String) : EngineState :=
  { room := createRoom roomCode tvSocketId createdAt
    timer := .noTimer
    ticksRemaining := 0 }

/-- One engine transition for a room, with the trace of room broadcasts it
commits.  Each constructor corresponds to a socket-event handler or a timer
firing of the source; the `lobbyOp` constructor abstracts the lobby-shape
operations (join, leave, kick, rejoin, connection flags, settings update),
which only replace the player list and the settings and broadcast `room:*`
events. -/
inductive Step : EngineState → EngineState → Trace → Prop where
  | showQ (s : EngineState) (now : Nat) :
      Step s (showQuestion s now).1 (showQuestion s now).2
  | tick (s : EngineState) (h : s.ticksRemaining ≠ 0) :
      Step s (timerTickFire s).1 (timerTickFire s).2
  | deadlineFire (s : EngineState) (ms : Nat) (s2 : EngineState) (tr : Trace)
      (h : s.timer = .deadline ms)
      (h2 : questionTimeoutFire s = some (s2, tr)) :
      Step s s2 tr
  | advanceTimerFire (s : EngineState) (ms now : Nat)
      (h : s.timer = .advance ms) :
      Step s (advanceFire s now).1 (advanceFire s now).2
  | submit (s : EngineState) (playerId : String) (answer : AnswerOption)
      (timestamp : Option Nat) (now : Nat) :
      Step s (answerSubmit s playerId answer timestamp now).1
        (answerSubmit s playerId answer timestamp now).2.1
  | tvTimeout (s : EngineState) (s2 : EngineState) (tr : Trace)
      (h : answerTimeoutTV s = some (s2, tr)) :
      Step s s2 tr
  | start (s : EngineState)
      (h : s.room.settings.minPlayers ≤ s.room.players.length)
      (h2 : s.room.questions ≠ []) :
      Step s (startGame s).1 (startGame s).2
  | endG (s : EngineState) :
      Step s (endGame s).1 (endGame s).2
  | restart (s : EngineState) :
      Step s (restartGameOp s).1 (restartGameOp s).2
  | pause (s : EngineState) :
      Step s (pauseGameOp s).1 (pauseGameOp s).2
  | setQ (s : EngineState) (qs : List Question) (cat : String) (h : qs ≠ []) :
      Step s { s with room := setQuestions s.room qs cat } []
  | lobbyOp (s : EngineState) (ps : List Player) (st : RoomSettings)
      (name : String) (counts : List Nat) :
      Step s { s with room := { s.room with players := ps, settings := st } }
        [(s.room.phase, .roomEvent name ps counts)]

/-- Engine states reachable from a freshly created room. -/
inductive Reachable : EngineState → Prop where
  | init (c tv t : String) : Reachable (initState c tv t)
  | step (s s2 : EngineState) (tr : Trace) :
      Reachable s → Step s s2 tr → Reachable s2

-- ============================================
-- Invariant of the engine state machine
-- ============================================

/-- Inductive invariant of the engine: the question index never exceeds the
question count, is strictly below it during phase `question`, and is strictly
below it while the post-reveal advance timer is pending. -/
def EngineInv (s : EngineState) : Prop :=
  s.room.currentQuestionIndex ≤ s.room.questions.length
  ∧ (s.room.phase = GamePhase.question →
      s.room.currentQuestionIndex < s.room.questions.length)
  ∧ (∀ ms, s.timer = .advance ms →
      s.room.currentQuestionIndex < s.room.questions.length)

-- ============================================
-- The ordering asserted by the specification for question results
-- ============================================

/-- Modelled from the spec's words, for comparison with the implementation:
the result list ordering the spec asserts, sorted by `pointsEarned`
descending, ties broken by `timeElapsed` ascending. -/
def sortedByPointsThenTime (l : List QuestionResult) : Prop :=
  l.Pairwise (fun a b =>
    b.pointsEarned < a.pointsEarned
    ∨ (a.pointsEarned = b.pointsEarned ∧ a.timeElapsed ≤ b.timeElapsed))

instance (l : List QuestionResult) : Decidable (sortedByPointsThenTime l) := by
  unfold sortedByPointsThenTime
  infer_instance

-- ============================================
-- Concrete fixtures used by counterexamples and witnesses
-- ============================================

/-- A connected player with zero score and streak. -/
def mkPlayer (id name : String) : Player :=
  { id := id
    name := name
    avatar := "fox"
    score := 0
    streak := 0
    jingleId := none
    isConnected := true
    isHost := false
    isReady := false }

/-- A sample question with the given correct answer and own time limit. -/
def mkQuestion (correct : AnswerOption) (tl : Option Nat) : Question :=
  { id := "q1"
    text := "Q1"
    options := { A := "a", B := "b", C := "c", D := "d" }
    correctAnswer := correct
    timeLimit := tl
    imageUrl := none }

/-- The default settings of a fresh room. -/
def sampleSettings : RoomSettings :=
  { questionCount := 10
    timeLimit := 20
    difficulty := "mixed"
    category := ""
    categoryName := ""
    maxPlayers := 50
    minPlayers := 2 }

/-- A two-player room in phase `question` on question 0. -/
def mkQuestionRoom (question : Question) (answers : List Answer) : Room :=
  { code := "ROOM01"
    tvSocketId := "tv"
    phase := GamePhase.question
    players := [mkPlayer "p1" "Alice", mkPlayer "p2" "Bob"]
    questions := [question]
    currentQuestionIndex := 0
    currentAnswers := answers
    questionStartTime := some 0
    settings := sampleSettings
    createdAt := "t" }

/-- Fixture for claim C4: both players answered wrongly, the first slowly,
the second quickly. -/
def ansC4 : List Answer :=
  [ { playerId := "p1", questionIndex := 0, answer := .B, timestamp := 0,
      timeElapsed := 5000 },
    { playerId := "p2", questionIndex := 0, answer := .C, timestamp := 0,
      timeElapsed := 1000 } ]

/-- Fixture for claim C2: Alice has already answered, Bob is about to; the
question deadline timer is pending. -/
def stateC2 : EngineState :=
  { room := mkQuestionRoom (mkQuestion .A none)
      [ { playerId := "p1", questionIndex := 0, answer := .A, timestamp := 0,
          timeElapsed := 1000 } ]
    timer := .deadline ((20 + 1) * 1000)
    ticksRemaining := 15 }

/-- Fixture for claim C3: nobody has answered yet; the question started at
time 0 with a 20-second limit. -/
def stateC3 : EngineState :=
  { room := mkQuestionRoom (mkQuestion .A none) []
    timer := .deadline ((20 + 1) * 1000)
    ticksRemaining := 3 }

/-- Fixture for claim C7: the room is in the lobby with one question whose
own time limit (5 s) differs from the room settings' limit (20 s). -/
def stateC7 : EngineState :=
  { room := { mkQuestionRoom (mkQuestion .A (some 5)) [] with
      phase := GamePhase.lobby, questionStartTime := none }
    timer := .noTimer
    ticksRemaining := 0 }

-- ============================================
-- General lemmas
-- ============================================

/-- `Rat.floor` agrees with the `FloorRing` floor on `ℚ` (definitional, via
the `FloorRing ℚ` instance). -/
theorem ratFloor_eq_intFloor (q : Rat) : q.floor = ⌊q⌋ := rfl

/-- For a correct answer, `calculatePoints` computes exactly the spec's
formula `claimPoints`.  The `if` is discharged by `if_neg` rather than by
definitional unfolding so that the check stays syntax-directed. -/
theorem calculatePoints_true_eq (e tl k : Nat) :
    calculatePoints true e tl k = claimPoints e tl k := by
  unfold calculatePoints
  rw [if_neg (by decide : ¬((!true) = true))]
  exact rfl

/-- The spec formula at `timeElapsed = timeLimit × 1000`: the time ratio is
0, so the time bonus vanishes and only base and streak bonus remain. -/
theorem claimPoints_full (tl k : Nat) (htl : 0 < tl) :
    claimPoints (tl * 1000) tl k = 1000 + min ((k : Int) * 100) 500 := by
  have htlq : ((tl : Rat) * 1000) ≠ 0 := by
    have : (tl : Rat) ≠ 0 := by
      exact_mod_cast Nat.pos_iff_ne_zero.1 htl
    positivity
  unfold claimPoints
  rw [ratFloor_eq_intFloor]
  have hcast : ((tl * 1000 : Nat) : Rat) = (tl : Rat) * 1000 := by push_cast; ring
  rw [hcast, div_self htlq]
  rw [show BASE_POINTS = 1000 from rfl, show STREAK_BONUS = 100 from rfl,
    show MAX_STREAK_BONUS = 500 from rfl,
    show TIME_BONUS_MULTIPLIER = 1/2 from rfl]
  norm_num

theorem insertDescBy_perm (key : α → Int) (x : α) (l : List α) :
    (insertDescBy key x l).Perm (x :: l) := by
  induction l with
  | nil => simp [insertDescBy]
  | cons y ys ih =>
    simp only [insertDescBy]
    split
    · exact List.Perm.refl _
    · exact ((ih.cons y).trans (List.Perm.swap x y ys))

theorem sortDescBy_perm (key : α → Int) (l : List α) :
    (sortDescBy key l).Perm l := by
  induction l with
  | nil => simp [sortDescBy]
  | cons x xs ih =>
    exact (insertDescBy_perm key x (sortDescBy key xs)).trans (ih.cons x)

theorem length_sortDescBy (key : α → Int) (l : List α) :
    (sortDescBy key l).length = l.length :=
  (sortDescBy_perm key l).length_eq

theorem mem_insertDescBy (key : α → Int) (x a : α) (l : List α) :
    a ∈ insertDescBy key x l ↔ a = x ∨ a ∈ l := by
  simpa using (insertDescBy_perm key x l).mem_iff

theorem pairwise_insertDescBy (key : α → Int) (x : α) (l : List α)
    (h : l.Pairwise (fun a b => key b ≤ key a)) :
    (insertDescBy key x l).Pairwise (fun a b => key b ≤ key a) := by
  induction l with
  | nil => simp [insertDescBy]
  | cons y ys ih =>
    simp only [insertDescBy]
    rcases List.pairwise_cons.1 h with ⟨hy, hys⟩
    split
    · rename_i hle
      refine List.pairwise_cons.2 ⟨?_, h⟩
      intro z hz
      rcases List.mem_cons.1 hz with rfl | hz
      · exact hle
      · exact le_trans (hy z hz) hle
    · rename_i hlt
      push_neg at hlt
      refine List.pairwise_cons.2 ⟨?_, ih hys⟩
      intro z hz
      rcases (mem_insertDescBy key x z ys).1 hz with rfl | hz
      · exact le_of_lt hlt
      · exact hy z hz

theorem pairwise_sortDescBy (key : α → Int) (l : List α) :
    (sortDescBy key l).Pairwise (fun a b => key b ≤ key a) := by
  induction l with
  | nil => simp [sortDescBy]
  | cons x xs ih =>
    exact pairwise_insertDescBy key x _ ih

theorem filter_insertDescBy (key : α → Int) (x : α) (l : List α) (k : Int) :
    (insertDescBy key x l).filter (fun a => key a == k)
      = if key x == k then x :: l.filter (fun a => key a == k)
        else l.filter (fun a => key a == k) := by
  induction l with
  | nil =>
    by_cases hx : key x = k <;> simp [insertDescBy, List.filter_cons, hx]
  | cons y ys ih =>
    simp only [insertDescBy]
    split
    · by_cases hx : key x = k <;> simp [List.filter_cons, hx]
    · rename_i hlt
      push_neg at hlt
      by_cases hx : key x = k
      · have hy : (key y == k) = false := by
          subst hx
          simp only [beq_eq_false_iff_ne, ne_eq]
          exact fun hcon => absurd hcon.le (not_le.2 hlt)
        simp [List.filter_cons, hy, ih, hx]
      · have hx' : (key x == k) = false := by simpa using hx
        simp [List.filter_cons, ih, hx']

/-- Stability of the sort: for every key value, the elements holding that key
appear in the output exactly as they appear in the input. -/
theorem filter_sortDescBy (key : α → Int) (l : List α) (k : Int) :
    (sortDescBy key l).filter (fun a => key a == k)
      = l.filter (fun a => key a == k) := by
  induction l with
  | nil => simp [sortDescBy]
  | cons x xs ih =>
    simp only [sortDescBy]
    rw [filter_insertDescBy]
    by_cases hx : key x = k
    · have hx' : (key x == k) = true := by simpa using hx
      simp [List.filter_cons, hx', ih]
    · have hx' : (key x == k) = false := by simpa using hx
      simp [List.filter_cons, hx', ih]

theorem enumFrom_map_proj (g : α → β) (l : List α) (n : Nat) :
    (List.enumFrom n l).map (fun ip => g ip.2) = l.map g := by
  induction l generalizing n with
  | nil => simp
  | cons x xs ih => simp [List.enumFrom, ih]

theorem enum_eq_enumFrom (l : List α) : l.enum = List.enumFrom 0 l := rfl

theorem recordAnswer_players (room : Room) (a : Answer) :
    (recordAnswer room a).players = room.players := rfl

theorem enumFrom_map_rank (l : List α) (n : Nat) :
    (List.enumFrom n l).map (fun ip => ip.1 + 1)
      = List.range' (n + 1) l.length := by
  induction l generalizing n with
  | nil => simp
  | cons x xs ih => simp [List.enumFrom, List.range'_succ, ih]

-- ============================================
-- Claim theorems
-- ============================================

/-- C1: a wrong or absent answer earns 0 points; a correct answer earns
the spec's formula `claimPoints`, i.e.
`BASE + floor(BASE × max(0, 1 − elapsedMs/(timeLimitSec×1000)) × 0.5)
+ min(priorStreak × 100, 500)` with `BASE = 1000`; in particular a correct
answer after 1000 ms of a 20 s question with prior streak 0 earns 1475. -/
theorem C1_point_formula :
    (∀ e tl k : Nat, calculatePoints false e tl k = 0)
    ∧ (∀ e tl k : Nat, 0 < tl → calculatePoints true e tl k = claimPoints e tl k)
    ∧ (∀ e tl k : Nat, claimPoints e tl k
        = BASE_POINTS
          + ((BASE_POINTS : Rat)
              * (max 0 (1 - (e : Rat) / ((tl : Rat) * 1000)))
              * TIME_BONUS_MULTIPLIER).floor
          + min ((k : Int) * STREAK_BONUS) MAX_STREAK_BONUS)
    ∧ BASE_POINTS = 1000 ∧ STREAK_BONUS = 100 ∧ MAX_STREAK_BONUS = 500
    ∧ TIME_BONUS_MULTIPLIER = 1/2
    ∧ (∀ q : Rat, q.floor = ⌊q⌋)
    ∧ calculatePoints true 1000 20 0 = 1475 := by
  refine ⟨fun e tl k => rfl, fun e tl k _ => calculatePoints_true_eq e tl k,
    fun e tl k => rfl, rfl, rfl, rfl, rfl, fun q => rfl, ?_⟩
  rw [calculatePoints_true_eq 1000 20 0,
    show claimPoints 1000 20 0
        = BASE_POINTS
          + ((BASE_POINTS : Rat)
              * (max 0 (1 - ((1000 : Nat) : Rat) / (((20 : Nat) : Rat) * 1000)))
              * TIME_BONUS_MULTIPLIER).floor
          + min (((0 : Nat) : Int) * STREAK_BONUS) MAX_STREAK_BONUS from rfl]
  rw [ratFloor_eq_intFloor]
  rw [show BASE_POINTS = 1000 from rfl, show STREAK_BONUS = 100 from rfl,
    show MAX_STREAK_BONUS = 500 from rfl,
    show TIME_BONUS_MULTIPLIER = 1/2 from rfl]
  norm_num

/-- Witness for C1 at a concrete input. -/
theorem C1_point_formula_witness :
    0 < 20 ∧ calculatePoints true 3000 20 2 = claimPoints 3000 20 2 :=
  ⟨by decide, C1_point_formula.2.1 3000 20 2 (by decide)⟩

/-- C8: after a restart, the phase is `lobby`; questions, answers and start
time are cleared, the index is 0; every player's score and streak are 0; and
everything else — the player list (ids, names, avatars, jingle ids,
connection flags, readiness, host flags, join order) and the settings, code,
host socket and creation time — is exactly as before; the engine timers are
cancelled and `game:restarted` is broadcast. -/
theorem C8_restart_frame (room : Room) (s : EngineState) :
    (resetRoom room).phase = GamePhase.lobby
    ∧ (resetRoom room).questions = []
    ∧ (resetRoom room).currentAnswers = []
    ∧ (resetRoom room).currentQuestionIndex = 0
    ∧ (resetRoom room).questionStartTime = none
    ∧ (resetRoom room).settings = room.settings
    ∧ (resetRoom room).code = room.code
    ∧ (resetRoom room).tvSocketId = room.tvSocketId
    ∧ (resetRoom room).createdAt = room.createdAt
    ∧ (resetRoom room).players.map (·.score)
        = List.replicate room.players.length 0
    ∧ (resetRoom room).players.map (·.streak)
        = List.replicate room.players.length 0
    ∧ (resetRoom room).players.map
        (fun p => (p.id, p.name, p.avatar, p.jingleId, p.isConnected,
          p.isHost, p.isReady))
      = room.players.map
        (fun p => (p.id, p.name, p.avatar, p.jingleId, p.isConnected,
          p.isHost, p.isReady))
    ∧ (restartGameOp s).1.room = resetRoom s.room
    ∧ (restartGameOp s).1.timer = TimerKind.noTimer
    ∧ (restartGameOp s).2 = [(GamePhase.lobby, Event.gameRestarted)] := by
  refine ⟨rfl, rfl, rfl, rfl, rfl, rfl, rfl, rfl, rfl, ?_, ?_, ?_, rfl, rfl, rfl⟩
  · simp [resetRoom, List.map_map, Function.comp_def, List.map_const']
  · simp [resetRoom, List.map_map, Function.comp_def, List.map_const']
  · simp [resetRoom, List.map_map, Function.comp_def]

/-- C9: the leaderboard ranking sorts by score descending, ties keep
insertion (join) order (so the output filtered to any score value lists those
players exactly in input order, which subsumes the vacuous name tiebreak),
ranks are the consecutive integers 1, 2, 3, …, and `getLeaderboard` agrees
with `calculateFinalRankings` on the shared fields. -/
theorem C9_leaderboard_ranking (players : List Player) :
    ((calculateFinalRankings players).map (·.rank) = List.range' 1 players.length)
    ∧ ((calculateFinalRankings players).map (·.score)).Pairwise (fun a b => b ≤ a)
    ∧ (∀ k : Int,
        ((calculateFinalRankings players).map
            (fun e => (e.playerId, e.name, e.score))).filter
          (fun t => t.2.2 == k)
          = (players.map (fun p => (p.id, p.name, p.score))).filter
              (fun t => t.2.2 == k))
    ∧ ((calculateFinalRankings players).length = players.length)
    ∧ (∀ room : Room,
        (getLeaderboard room).map
            (fun e => (e.playerId, e.name, e.avatar, e.score, e.rank))
          = (calculateFinalRankings room.players).map
              (fun e => (e.playerId, e.name, e.avatar, e.score, e.rank))) := by
  refine ⟨?_, ?_, ?_, ?_, ?_⟩
  · simp only [calculateFinalRankings, enum_eq_enumFrom, List.map_map,
      Function.comp_def]
    have := enumFrom_map_rank (sortDescBy (·.score) players) 0
    simpa [length_sortDescBy] using this
  · simp only [calculateFinalRankings, enum_eq_enumFrom, List.map_map,
      Function.comp_def]
    have := enumFrom_map_proj (fun p : Player => p.score)
      (sortDescBy (·.score) players) 0
    rw [this]
    exact (List.pairwise_map).2 (pairwise_sortDescBy (·.score) players)
  · intro k
    simp only [calculateFinalRankings, enum_eq_enumFrom, List.map_map,
      Function.comp_def]
    rw [enumFrom_map_proj (fun p : Player => (p.id, p.name, p.score))]
    rw [List.filter_map, List.filter_map]
    have hc : ((fun t : String × String × Int => t.2.2 == k)
        ∘ (fun p : Player => (p.id, p.name, p.score)))
        = (fun p : Player => p.score == k) := rfl
    rw [hc]
    rw [filter_sortDescBy (·.score) players k]
  · simp [calculateFinalRankings, length_sortDescBy]
  · intro room
    simp only [calculateFinalRankings, getLeaderboard, enum_eq_enumFrom,
      List.map_map, Function.comp_def]

/-- C4 counterexample: with two wrong answers (hence equal `pointsEarned`)
whose `timeElapsed` are 5000 ms and 1000 ms in that player order, the result
list keeps the player order `[5000, 1000]` instead of breaking the tie by
`timeElapsed` ascending, so the ordering the claim asserts fails. -/
theorem C4_counterexample :
    ((calculateQuestionResults (mkQuestionRoom (mkQuestion .A none) ansC4)
        (mkQuestion .A none) ansC4).map
        (fun r => (r.pointsEarned, r.timeElapsed))
      = [(0, 5000), (0, 1000)])
    ∧ ¬ sortedByPointsThenTime
        (calculateQuestionResults (mkQuestionRoom (mkQuestion .A none) ansC4)
          (mkQuestion .A none) ansC4) := by
  decide

/-- C4 (amended): `calculateQuestionResults` returns exactly one result per
player in the room — with `answer` the submitted answer (none iff the player
did not answer), `newScore = player.score + pointsEarned`, and
`streak = priorStreak + 1` if correct else 0 — sorted by `pointsEarned`
descending; ties are broken by the room's player (join) order, not by
`timeElapsed`. -/
theorem C4_results_shape (room : Room) (question : Question)
    (answers : List Answer) :
    ((calculateQuestionResults room question answers).length
        = room.players.length)
    ∧ ((calculateQuestionResults room question answers).Perm
        (room.players.map (resultForPlayer question answers
          (jsOr question.timeLimit room.settings.timeLimit))))
    ∧ ((calculateQuestionResults room question answers).Pairwise
        (fun a b => b.pointsEarned ≤ a.pointsEarned))
    ∧ (∀ k : Int,
        (calculateQuestionResults room question answers).filter
          (fun r => r.pointsEarned == k)
        = (room.players.map (resultForPlayer question answers
            (jsOr question.timeLimit room.settings.timeLimit))).filter
            (fun r => r.pointsEarned == k))
    ∧ (∀ p : Player,
        let r := resultForPlayer question answers
          (jsOr question.timeLimit room.settings.timeLimit) p
        r.playerId = p.id
        ∧ r.answer = (answers.find? (fun a => a.playerId == p.id)).map (·.answer)
        ∧ (r.answer = none ↔ answers.find? (fun a => a.playerId == p.id) = none)
        ∧ r.isCorrect = (r.answer == some question.correctAnswer)
        ∧ r.newScore = p.score + r.pointsEarned
        ∧ r.streak = (if r.isCorrect then p.streak + 1 else 0)
        ∧ r.timeElapsed
            = jsOr ((answers.find? (fun a => a.playerId == p.id)).map
                (·.timeElapsed)) 0) := by
  refine ⟨?_, ?_, ?_, ?_, ?_⟩
  · simp [calculateQuestionResults, length_sortDescBy]
  · exact sortDescBy_perm _ _
  · exact pairwise_sortDescBy _ _
  · intro k
    exact filter_sortDescBy _ _ k
  · intro p
    refine ⟨rfl, rfl, ?_, rfl, rfl, rfl, rfl⟩
    simp [resultForPlayer, Option.map_eq_none]

/-- C10: a correct answer recorded with `timeElapsed = 0` is scored as if it
took the full time limit — `pointsEarned = 1000 + min(priorStreak × 100,
500)` with zero time bonus, because the falsy `timeElapsed` is replaced by
`timeLimit × 1000` before the point computation — while the result's
`timeElapsed` field is reported as 0. -/
theorem C10_zero_elapsed_full_penalty (question : Question)
    (answers : List Answer) (tl : Nat) (p : Player) (a0 : Answer)
    (hfind : answers.find? (fun a => a.playerId == p.id) = some a0)
    (h0 : a0.timeElapsed = 0)
    (hcorrect : a0.answer = question.correctAnswer)
    (htl : 0 < tl) :
    (resultForPlayer question answers tl p).pointsEarned
      = 1000 + min ((p.streak : Int) * 100) 500
    ∧ (resultForPlayer question answers tl p).timeElapsed = 0 := by
  constructor
  · simp only [resultForPlayer, hfind, Option.map_some, Option.map_some',
      h0, hcorrect, beq_self_eq_true]
    rw [show (jsOr (some 0) (tl * 1000)) = tl * 1000 from rfl]
    rw [calculatePoints_true_eq, claimPoints_full tl p.streak htl]
  · simp [resultForPlayer, hfind, h0, jsOr]

/-- Witness for C10 at a concrete input. -/
theorem C10_zero_elapsed_full_penalty_witness :
    ([ ({ playerId := "p1", questionIndex := 0, answer := .A, timestamp := 0,
          timeElapsed := 0 } : Answer) ].find?
        (fun a => a.playerId == (mkPlayer "p1" "Alice").id)
      = some { playerId := "p1", questionIndex := 0, answer := .A,
               timestamp := 0, timeElapsed := 0 })
    ∧ (resultForPlayer (mkQuestion .A none)
        [ { playerId := "p1", questionIndex := 0, answer := .A, timestamp := 0,
            timeElapsed := 0 } ] 20 (mkPlayer "p1" "Alice")).pointsEarned
       = 1000 + min (((mkPlayer "p1" "Alice").streak : Int) * 100) 500 :=
  ⟨by decide,
   (C10_zero_elapsed_full_penalty (mkQuestion .A none)
      [ { playerId := "p1", questionIndex := 0, answer := .A, timestamp := 0,
          timeElapsed := 0 } ] 20 (mkPlayer "p1" "Alice")
      { playerId := "p1", questionIndex := 0, answer := .A, timestamp := 0,
        timeElapsed := 0 }
      (by decide) rfl rfl (by decide)).1⟩

/-- C3 counterexample: in a room whose question started at time 0 with a 20 s
limit, an `answer:submit` arriving at `0 + 20·1000 + 1` ms (1 ms after the
claimed window) is still accepted, contradicting the claimed rejection — the
handler checks only the phase and the duplicate set, never the clock. -/
theorem C3_counterexample :
    stateC3.room.questionStartTime = some 0
    ∧ stateC3.room.settings.timeLimit = 20
    ∧ (stateC3.room.questions.map (·.timeLimit)) = [none]
    ∧ (answerSubmit stateC3 "p1" .A none (0 + 20 * 1000 + 1)).2.2 = Ack.ok true := by
  decide

/-- C3 (amended): answer admission does not consult the clock at all — a
submission at any server time `now` is accepted exactly when the room phase
is `question` and the player has not yet answered the current question (the
phase leaves `question` only when the `(timeLimit + 1) s` deadline fires or
the TV sends `answer:timeout`), so both the `−1 ms` and the `+1 ms`
submissions of the claim are accepted. -/
theorem C3_admission_by_phase_only (s : EngineState) (playerId : String)
    (answer : AnswerOption) (timestamp : Option Nat) (now : Nat) :
    (answerSubmit s playerId answer timestamp now).2.2 = Ack.ok true
      ↔ (s.room.phase = GamePhase.question
         ∧ (s.room.currentAnswers.find? (fun a =>
              a.playerId == playerId
              && a.questionIndex == s.room.currentQuestionIndex)).isSome
            = false) := by
  simp only [answerSubmit]
  split
  · rename_i hphase
    simp only [ne_eq] at hphase
    constructor
    · intro h
      cases h
    · rintro ⟨h1, -⟩
      exact absurd h1 hphase
  · rename_i hphase
    simp only [ne_eq, not_not] at hphase
    split
    · rename_i hdup
      constructor
      · intro h
        cases h
      · rintro ⟨-, h2⟩
        rw [hdup] at h2
        cases h2
    · rename_i hdup
      simp only [Bool.not_eq_true] at hdup
      exact iff_of_true rfl ⟨hphase, by simpa using hdup⟩

/-- C7 counterexample: with a question whose own `timeLimit` is 5 s in a room
whose settings say 20 s, `showQuestion` broadcasts `game:question` carrying
20 s (both payload fields), registers the deadline at `(20 + 1) s` and a
20-tick stream — all from the settings, ignoring the question's own limit,
which only the Scorer (via `jsOr question.timeLimit settings.timeLimit`)
would resolve to 5 s. -/
theorem C7_counterexample :
    (stateC7.room.questions.map (·.timeLimit) = [some 5])
    ∧ stateC7.room.settings.timeLimit = 20
    ∧ (showQuestion stateC7 0).2
        = [(GamePhase.question,
            Event.gameQuestion 0 1 "Q1"
              { A := "a", B := "b", C := "c", D := "d" } 20 none 20)]
    ∧ (showQuestion stateC7 0).1.timer = TimerKind.deadline ((20 + 1) * 1000)
    ∧ (showQuestion stateC7 0).1.ticksRemaining = 20
    ∧ jsOr (some 5) stateC7.room.settings.timeLimit = 5 := by
  decide

/-- C7 (amended): the `game:question` payload, the tick-stream length and the
deadline registered by `showQuestion` all use the room settings'
`timeLimit` unconditionally; only the Scorer falls back from the question's
own `timeLimit` to the settings value. -/
theorem C7_timelimit_sources (s : EngineState) (now : Nat) (q : Question)
    (hq : s.room.questions[s.room.currentQuestionIndex]? = some q) :
    (showQuestion s now).2
      = [(GamePhase.question,
          Event.gameQuestion s.room.currentQuestionIndex
            s.room.questions.length q.text q.options
            s.room.settings.timeLimit q.imageUrl
            s.room.settings.timeLimit)]
    ∧ (showQuestion s now).1.timer
        = TimerKind.deadline ((s.room.settings.timeLimit + 1) * 1000)
    ∧ (showQuestion s now).1.ticksRemaining = s.room.settings.timeLimit
    ∧ (∀ (room : Room) (answers : List Answer),
        calculateQuestionResults room q answers
          = sortDescBy (·.pointsEarned)
              (room.players.map (resultForPlayer q answers
                (jsOr q.timeLimit room.settings.timeLimit)))) := by
  refine ⟨?_, ?_, ?_, fun room answers => rfl⟩ <;>
    simp [showQuestion, hq]

/-- Witness for C7 at a concrete input. -/
theorem C7_timelimit_sources_witness :
    (stateC7.room.questions[stateC7.room.currentQuestionIndex]?
        = some (mkQuestion .A (some 5)))
    ∧ (showQuestion stateC7 5).1.ticksRemaining
        = stateC7.room.settings.timeLimit :=
  ⟨by decide,
   (C7_timelimit_sources stateC7 5 (mkQuestion .A (some 5)) (by decide)).2.2.1⟩

/-- C2 counterexample: when the second of two connected players answers, the
handler broadcasts `answer:all-received` — but the pending question deadline
timer is still registered, the phase stays `question`, and no `game:reveal`
is emitted by this step, so the resolution is not invoked synchronously and
the deadline is not cancelled, contrary to the claim. -/
theorem C2_counterexample :
    (answerSubmit stateC2 "p2" .B none 2000).2.1
      = [(GamePhase.question, Event.playerAnswered "p2" 2 2),
         (GamePhase.question, Event.answerReceived "p2" 2 2),
         (GamePhase.question, Event.answerAllReceived)]
    ∧ (answerSubmit stateC2 "p2" .B none 2000).1.timer
        = TimerKind.deadline ((20 + 1) * 1000)
    ∧ (answerSubmit stateC2 "p2" .B none 2000).1.room.phase
        = GamePhase.question
    ∧ (∀ pe ∈ (answerSubmit stateC2 "p2" .B none 2000).2.1,
        carriesCorrectAnswer pe.2 = false) := by
  decide

/-- C2 (amended): when an admitted answer makes the answer count reach the
number of connected players, the handler broadcasts `answer:all-received`
(after `player:answered` and `answer:received`) — and nothing more: the
engine timer is untouched, the phase stays `question`, and no event carrying
`correctAnswer` is emitted; `game:reveal` follows only from the deadline
firing or a TV `answer:timeout`. -/
theorem C2_allreceived_no_resolution (s : EngineState) (playerId : String)
    (answer : AnswerOption) (timestamp : Option Nat) (now : Nat) :
    (answerSubmit s playerId answer timestamp now).1.timer = s.timer
    ∧ (answerSubmit s playerId answer timestamp now).1.room.phase
        = s.room.phase
    ∧ (∀ pe ∈ (answerSubmit s playerId answer timestamp now).2.1,
        carriesCorrectAnswer pe.2 = false)
    ∧ (s.room.phase = GamePhase.question →
       (s.room.currentAnswers.find? (fun a =>
          a.playerId == playerId
          && a.questionIndex == s.room.currentQuestionIndex)).isSome = false →
       (((s.room.players.filter (·.isConnected)).length
           ≤ ((recordAnswer s.room (mkAnswerRecord s playerId answer timestamp
               now)).currentAnswers.filter (fun a =>
                a.questionIndex == s.room.currentQuestionIndex)).length)
        ↔ (GamePhase.question, Event.answerAllReceived)
            ∈ (answerSubmit s playerId answer timestamp now).2.1)) := by
  simp only [answerSubmit]
  split
  · exact ⟨rfl, rfl, by simp, fun h1 _ => absurd h1 (by assumption)⟩
  · rename_i hphase
    simp only [ne_eq, not_not] at hphase
    split
    · rename_i hdup
      refine ⟨rfl, rfl, by simp, fun _ h2 => ?_⟩
      rw [hdup] at h2
      cases h2
    · rename_i hdup
      simp only [recordAnswer_players]
      by_cases hc : ((s.room.players.filter (·.isConnected)).length
          ≤ ((recordAnswer s.room (mkAnswerRecord s playerId answer
              timestamp now)).currentAnswers.filter (fun a =>
                a.questionIndex == s.room.currentQuestionIndex)).length)
      · rw [if_pos hc]
        refine ⟨by trivial, by trivial, ?_, fun _ _ => iff_of_true hc (by simp)⟩
        intro pe hpe
        simp only [List.mem_append, List.mem_cons, List.not_mem_nil,
          or_false] at hpe
        rcases hpe with (rfl | rfl) | rfl <;> rfl
      · rw [if_neg hc]
        refine ⟨by trivial, by trivial, ?_, fun _ _ => iff_of_false hc ?_⟩
        · intro pe hpe
          simp only [List.append_nil, List.mem_cons, List.not_mem_nil,
            or_false] at hpe
          rcases hpe with rfl | rfl <;> rfl
        · intro hmem
          simp only [List.append_nil, List.mem_cons, List.not_mem_nil,
            or_false, Prod.mk.injEq] at hmem
          rcases hmem with ⟨-, h⟩ | ⟨-, h⟩ <;> cases h

/-- Witness for C2 at a concrete input. -/
theorem C2_allreceived_no_resolution_witness :
    (GamePhase.question, Event.answerAllReceived)
      ∈ (answerSubmit stateC2 "p2" .B none 2000).2.1 :=
  ((C2_allreceived_no_resolution stateC2 "p2" .B none 2000).2.2.2
    (by decide) (by decide)).mp (by decide)

-- ============================================
-- Preservation of the engine invariant
-- ============================================

theorem endGame_inv (s : EngineState)
    (h : s.room.currentQuestionIndex ≤ s.room.questions.length) :
    EngineInv (endGame s).1 :=
  ⟨h, ⟨fun hph => GamePhase.noConfusion hph,
       fun _ hms => TimerKind.noConfusion hms⟩⟩

theorem showQuestion_inv (s : EngineState) (now : Nat)
    (h : s.room.currentQuestionIndex ≤ s.room.questions.length) :
    EngineInv (showQuestion s now).1 := by
  unfold showQuestion
  cases hq : s.room.questions[s.room.currentQuestionIndex]? with
  | none => exact endGame_inv s h
  | some q =>
    have hlt : s.room.currentQuestionIndex < s.room.questions.length := by
      by_contra hc
      push_neg at hc
      rw [List.getElem?_eq_none hc] at hq
      cases hq
    exact ⟨le_of_lt hlt, ⟨fun _ => hlt,
      fun ms hms => TimerKind.noConfusion hms⟩⟩

theorem foldl_updateScore_fields (rs : List QuestionResult) (room : Room) :
    ((rs.foldl (fun r res => updatePlayerScore r res.playerId res.pointsEarned
        res.isCorrect) room).currentQuestionIndex = room.currentQuestionIndex)
    ∧ ((rs.foldl (fun r res => updatePlayerScore r res.playerId
        res.pointsEarned res.isCorrect) room).questions = room.questions) := by
  induction rs generalizing room with
  | nil => exact ⟨rfl, rfl⟩
  | cons r rs ih =>
    simp only [List.foldl_cons]
    exact ih (updatePlayerScore room r.playerId r.pointsEarned r.isCorrect)

theorem resolveCurrentQuestion_fields (room r2 : Room) (q : Question)
    (res : List QuestionResult) (st : List LeaderboardEntry)
    (h : resolveCurrentQuestion room = some (r2, q, res, st)) :
    r2.currentQuestionIndex = room.currentQuestionIndex
    ∧ r2.questions = room.questions := by
  simp only [resolveCurrentQuestion] at h
  split at h
  · cases h
  · simp only [Option.some.injEq, Prod.mk.injEq] at h
    obtain ⟨h1, -, -, -⟩ := h
    rw [← h1]
    exact foldl_updateScore_fields _ room

theorem step_preserves_inv (s s2 : EngineState) (tr : Trace)
    (hinv : EngineInv s) (hstep : Step s s2 tr) : EngineInv s2 := by
  cases hstep with
  | showQ now => exact showQuestion_inv s now hinv.1
  | tick h =>
    unfold timerTickFire
    split
    · exact hinv
    · exact hinv
  | deadlineFire ms s2 tr h h2 =>
    simp only [questionTimeoutFire] at h2
    split at h2
    · rename_i hphase
      simp only [Option.some.injEq, Prod.mk.injEq] at h2
      obtain ⟨h1, -⟩ := h2
      rw [← h1]
      exact ⟨hinv.1, ⟨fun hq => absurd hq hphase,
        fun ms2 hms2 => TimerKind.noConfusion hms2⟩⟩
    · rename_i hphase
      simp only [ne_eq, not_not] at hphase
      split at h2
      · cases h2
      · rename_i room2 question2 results2 standings2 hresolve
        simp only [Option.some.injEq, Prod.mk.injEq] at h2
        obtain ⟨h1, -⟩ := h2
        rw [← h1]
        obtain ⟨hidx, hqs⟩ := resolveCurrentQuestion_fields s.room room2
          question2 results2 standings2 hresolve
        refine ⟨?_, ⟨fun hq => GamePhase.noConfusion hq, fun ms2 hms2 => ?_⟩⟩
        · show room2.currentQuestionIndex ≤ room2.questions.length
          rw [hidx, hqs]
          exact hinv.1
        · show room2.currentQuestionIndex < room2.questions.length
          rw [hidx, hqs]
          exact hinv.2.1 hphase
  | advanceTimerFire ms now h =>
    have hlt := hinv.2.2 ms h
    simp only [advanceFire]
    split
    · exact showQuestion_inv _ now (Nat.succ_le_of_lt hlt)
    · exact endGame_inv _ (Nat.succ_le_of_lt hlt)
  | submit pid ans ts now =>
    simp only [answerSubmit]
    split
    · exact hinv
    · split
      · exact hinv
      · exact hinv
  | tvTimeout s2 tr h =>
    simp only [answerTimeoutTV] at h
    split at h
    · cases h
    · rename_i room2 question2 results2 standings2 hresolve
      simp only [Option.some.injEq, Prod.mk.injEq] at h
      obtain ⟨h1, -⟩ := h
      rw [← h1]
      obtain ⟨hidx, hqs⟩ := resolveCurrentQuestion_fields s.room room2
        question2 results2 standings2 hresolve
      refine ⟨?_, ⟨fun hq => GamePhase.noConfusion hq, fun ms2 hms2 => ?_⟩⟩
      · show room2.currentQuestionIndex ≤ room2.questions.length
        rw [hidx, hqs]
        exact hinv.1
      · show room2.currentQuestionIndex < room2.questions.length
        rw [hidx, hqs]
        exact hinv.2.2 ms2 hms2
  | start h h2 =>
    exact ⟨hinv.1, ⟨fun hq => GamePhase.noConfusion hq,
      fun ms hms => hinv.2.2 ms hms⟩⟩
  | endG => exact endGame_inv s hinv.1
  | restart =>
    exact ⟨Nat.le_refl 0, ⟨fun hq => GamePhase.noConfusion hq,
      fun ms hms => TimerKind.noConfusion hms⟩⟩
  | pause =>
    exact ⟨hinv.1, ⟨fun hq => GamePhase.noConfusion hq,
      fun ms hms => TimerKind.noConfusion hms⟩⟩
  | setQ qs cat h =>
    exact ⟨Nat.zero_le _, ⟨fun _ => List.length_pos.2 h,
      fun ms hms => List.length_pos.2 h⟩⟩
  | lobbyOp ps st name counts => exact hinv

theorem reachable_inv (s : EngineState) (h : Reachable s) : EngineInv s := by
  induction h with
  | init c tv t =>
    exact ⟨Nat.le_refl 0, ⟨fun hq => GamePhase.noConfusion hq,
      fun ms hms => TimerKind.noConfusion hms⟩⟩
  | step s s2 tr _ hstep ih => exact step_preserves_inv s s2 tr ih hstep

/-- C6 counterexample: a freshly created room is reachable, has
`currentQuestionIndex = 0 = len(questions)` (the question list is empty), and
its phase is `lobby`, not `final` — so `currentQuestionIndex = len(questions)`
does not hold only in phase `final`. -/
theorem C6_counterexample :
    Reachable (initState "ROOM01" "tv" "t")
    ∧ (initState "ROOM01" "tv" "t").room.currentQuestionIndex
        = (initState "ROOM01" "tv" "t").room.questions.length
    ∧ (initState "ROOM01" "tv" "t").room.phase ≠ GamePhase.final :=
  ⟨Reachable.init "ROOM01" "tv" "t", by decide, by decide⟩

/-- C6 (amended): in every reachable engine state,
`0 ≤ currentQuestionIndex ≤ len(questions)`, and during phase `question`
the index is strictly below `len(questions)`; however
`currentQuestionIndex = len(questions)` can hold outside phase `final`
(e.g. a freshly created or reset room has index 0 = len 0 in the lobby). -/
theorem C6_index_bound (s : EngineState) (h : Reachable s) :
    s.room.currentQuestionIndex ≤ s.room.questions.length
    ∧ (s.room.phase = GamePhase.question →
        s.room.currentQuestionIndex < s.room.questions.length) :=
  ⟨(reachable_inv s h).1, (reachable_inv s h).2.1⟩

/-- Witness for C6 at a concrete reachable state. -/
theorem C6_index_bound_witness :
    (initState "R2" "tv2" "t2").room.currentQuestionIndex
      ≤ (initState "R2" "tv2" "t2").room.questions.length :=
  (C6_index_bound (initState "R2" "tv2" "t2") (Reachable.init "R2" "tv2" "t2")).1

-- ============================================
-- Confidentiality of the correct answer (C5)
-- ============================================

theorem entry_ok_of_no_correct (ph : GamePhase) (ev : Event)
    (hev : carriesCorrectAnswer ev = false) :
    (ph = GamePhase.question → carriesCorrectAnswer ev = false)
    ∧ (carriesCorrectAnswer ev = true → ph = GamePhase.reveal) :=
  ⟨fun _ => hev, fun hc => absurd hc (by simp [hev])⟩

theorem endGame_trace_ok (s : EngineState) :
    ∀ pe ∈ (endGame s).2,
      (pe.1 = GamePhase.question → carriesCorrectAnswer pe.2 = false)
      ∧ (carriesCorrectAnswer pe.2 = true → pe.1 = GamePhase.reveal) := by
  intro pe hpe
  simp only [endGame, List.mem_singleton] at hpe
  subst hpe
  exact entry_ok_of_no_correct _ _ rfl

theorem showQuestion_trace_ok (s : EngineState) (now : Nat) :
    ∀ pe ∈ (showQuestion s now).2,
      (pe.1 = GamePhase.question → carriesCorrectAnswer pe.2 = false)
      ∧ (carriesCorrectAnswer pe.2 = true → pe.1 = GamePhase.reveal) := by
  intro pe hpe
  unfold showQuestion at hpe
  split at hpe
  · exact endGame_trace_ok s pe hpe
  · simp only [List.mem_singleton] at hpe
    subst hpe
    exact entry_ok_of_no_correct _ _ rfl

/-- C5: in every engine transition, no event emitted while the committed room
phase is `question` carries a `correctAnswer` field, and every event that
does carry one (`game:reveal`) is emitted with the phase already `reveal`.
The `gameQuestion` payload carries only the question's text, options, time
limit and image, by construction of the `Event.gameQuestion` constructor. -/
theorem C5_confidentiality (s s2 : EngineState) (tr : Trace)
    (h : Step s s2 tr) :
    ∀ pe ∈ tr,
      (pe.1 = GamePhase.question → carriesCorrectAnswer pe.2 = false)
      ∧ (carriesCorrectAnswer pe.2 = true → pe.1 = GamePhase.reveal) := by
  cases h with
  | showQ now => exact showQuestion_trace_ok s now
  | tick h =>
    intro pe hpe
    unfold timerTickFire at hpe
    split at hpe
    · simp at hpe
    · split at hpe <;> simp only [List.mem_cons, List.mem_singleton,
        List.not_mem_nil, or_false] at hpe
      · rcases hpe with rfl | rfl <;> exact entry_ok_of_no_correct _ _ rfl
      · subst hpe
        exact entry_ok_of_no_correct _ _ rfl
  | deadlineFire ms s2 tr hh h2 =>
    intro pe hpe
    simp only [questionTimeoutFire] at h2
    split at h2
    · simp only [Option.some.injEq, Prod.mk.injEq] at h2
      obtain ⟨-, ht⟩ := h2
      rw [← ht] at hpe
      exact absurd hpe (List.not_mem_nil pe)
    · split at h2
      · cases h2
      · rename_i room2 q2 res2 st2 hresolve
        simp only [Option.some.injEq, Prod.mk.injEq] at h2
        obtain ⟨-, ht⟩ := h2
        rw [← ht] at hpe
        simp only [List.mem_singleton] at hpe
        subst hpe
        exact ⟨fun hq => GamePhase.noConfusion hq, fun _ => rfl⟩
  | advanceTimerFire ms now hh =>
    intro pe hpe
    simp only [advanceFire] at hpe
    split at hpe
    · exact showQuestion_trace_ok _ now pe hpe
    · exact endGame_trace_ok _ pe hpe
  | submit pid ans ts now =>
    intro pe hpe
    simp only [answerSubmit] at hpe
    split at hpe
    · exact absurd hpe (List.not_mem_nil pe)
    · split at hpe
      · exact absurd hpe (List.not_mem_nil pe)
      · rcases List.mem_append.1 hpe with hmem | hmem
        · simp only [List.mem_cons, List.mem_singleton,
            List.not_mem_nil, or_false] at hmem
          rcases hmem with rfl | rfl <;> exact entry_ok_of_no_correct _ _ rfl
        · split at hmem
          · simp only [List.mem_singleton] at hmem
            subst hmem
            exact entry_ok_of_no_correct _ _ rfl
          · exact absurd hmem (List.not_mem_nil pe)
  | tvTimeout s2 tr h =>
    intro pe hpe
    simp only [answerTimeoutTV] at h
    split at h
    · cases h
    · rename_i room2 q2 res2 st2 hresolve
      simp only [Option.some.injEq, Prod.mk.injEq] at h
      obtain ⟨-, ht⟩ := h
      rw [← ht] at hpe
      simp only [List.mem_singleton] at hpe
      subst hpe
      exact ⟨fun hq => GamePhase.noConfusion hq, fun _ => rfl⟩
  | start h h2 =>
    intro pe hpe
    simp only [startGame, List.mem_singleton] at hpe
    subst hpe
    exact entry_ok_of_no_correct _ _ rfl
  | endG => exact endGame_trace_ok s
  | restart =>
    intro pe hpe
    simp only [restartGameOp, List.mem_singleton] at hpe
    subst hpe
    exact entry_ok_of_no_correct _ _ rfl
  | pause =>
    intro pe hpe
    simp only [pauseGameOp, List.mem_singleton] at hpe
    subst hpe
    exact entry_ok_of_no_correct _ _ rfl
  | setQ qs cat h =>
    intro pe hpe
    exact absurd hpe (List.not_mem_nil pe)
  | lobbyOp ps st name counts =>
    intro pe hpe
    simp only [List.mem_singleton] at hpe
    subst hpe
    exact entry_ok_of_no_correct _ _ rfl

/-- Witness for C5 at a concrete transition. -/
theorem C5_confidentiality_witness :
    carriesCorrectAnswer Event.answerAllReceived = false :=
  (C5_confidentiality stateC2 _ _ (Step.submit stateC2 "p2" .B none 2000)
    (GamePhase.question, Event.answerAllReceived) (by decide)).1 rfl

end Queezy
